import Mathlib

/-!
# SCAR carbon-footprint engine: a shallow embedding

This file embeds the core computation of the SCAR application in Lean 4:
the emission calculator (`calculate_emissions`), the scenario engine
(`scenario_modal_substitution`, `scenario_digital_sobriety`,
`scenario_utility_aware`) with its rule constants, and the indicator
derivation of the results route (profile classification, totals,
reductions, dominant category).

Python dictionaries over string keys are modelled as association lists
`List (String × ℚ)` with first-match lookup and in-place update
(`setK` replaces the first matching key, appending at the end when the
key is absent — exactly Python's insertion-ordered dict assignment).
Numeric values are exact rationals `ℚ` standing for Python floats;
`round(x, n)` is modelled by round-half-to-even on the exact rational.
-/

/-- An emissions dictionary: association list from activity key to kgCO2e. -/
abbrev Emissions := List (String × ℚ)

/-- First-match lookup, the reading semantics of a Python dict
(with unique keys, the first match is the only match). -/
def lookup : Emissions → String → Option ℚ
  | [], _ => none
  | p :: rest, key => if p.1 = key then some p.2 else lookup rest key

/-- `d.get(key, dflt)`. -/
def getD (e : Emissions) (key : String) (d : ℚ) : ℚ :=
  (lookup e key).getD d

/-- `key in d`. -/
def containsKey (e : Emissions) (key : String) : Bool :=
  (lookup e key).isSome

/-- Dict assignment `d[key] = v`: replace the first occurrence in place,
or append at the end when the key is absent. -/
def setK : Emissions → String → ℚ → Emissions
  | [], key, v => [(key, v)]
  | p :: rest, key, v => if p.1 = key then (key, v) :: rest else p :: setK rest key v

/-- `sum(d.values())`. -/
def sumVals (e : Emissions) : ℚ :=
  (e.map Prod.snd).sum

/-- The value of `key` when present and strictly positive, else 0.
Used to express how much a guarded scenario rule removes from a key. -/
def posVal (e : Emissions) (key : String) : ℚ :=
  match lookup e key with
  | some v => if v > 0 then v else 0
  | none => 0

/-- Every value in the dictionary is non-negative. -/
def NonNeg (e : Emissions) : Prop := ∀ p ∈ e, (0 : ℚ) ≤ p.2

instance (e : Emissions) : Decidable (NonNeg e) := by
  unfold NonNeg; infer_instance

/-- Round-half-to-even to an integer, as Python's `round` does. -/
def roundHalfEven (q : ℚ) : ℤ :=
  let n := Int.floor q
  let frac := q - n
  if frac < 1/2 then n
  else if 1/2 < frac then n + 1
  else if n % 2 = 0 then n else n + 1

/-- Python `round(q, 2)` on the exact rational value. -/
def round2 (q : ℚ) : ℚ := (roundHalfEven (q * 100) : ℚ) / 100

/-- Python `round(q, 1)` on the exact rational value. -/
def round1 (q : ℚ) : ℚ := (roundHalfEven (q * 10) : ℚ) / 10

/-- A raw form value as received by the Flask routes.  A field is either
absent from the form, or a string; a string is abstracted by the result of
the two numeric conversions the code applies to it: `floatParse` is
`some q` when Python `float(s)` succeeds with (finite) value `q`, `none`
when it raises `ValueError`; `intParse` likewise for `int(s)`. -/
inductive RawValue where
  | missing : RawValue
  | val (floatParse : Option ℚ) (intParse : Option ℤ) : RawValue

/-- `float(form_data.get(key, 0))` wrapped in `try/except` defaulting to
`0.0`: a missing key defaults to `0`, and a failed conversion yields `0.0`
(emissions.py lines 33-40). -/
def floatOrZero : RawValue → ℚ
  | .missing => 0
  | .val fp _ => fp.getD 0

/-- `int(form_data.get("mission_utility", 0))` (app.py): a missing key
defaults to `0`; a string that `int` cannot parse raises, which the route
does not catch — modelled by `none`. -/
def parse_utility (form : String → RawValue) : Option ℤ :=
  match form "mission_utility" with
  | .missing => some 0
  | .val _ ip => ip

/-- The FACTORS table of emission_factors.py, in source order. -/
def FACTORS : List (String × ℚ) :=
  [("flight_short", 0.255), ("flight_medium", 0.145), ("flight_long", 0.133),
   ("train_tgv", 0.003), ("train_ter", 0.007), ("car_diesel", 0.25),
   ("car_essence", 0.23), ("carpool", 0.083), ("bus", 0.10), ("metro", 0.005),
   ("electricity", 0.079), ("gas", 0.227), ("fioul", 0.300),
   ("heating_network", 0.180),
   ("laptops", 300), ("desktop", 450), ("screen", 100), ("server", 1600),
   ("cloud", 120), ("video_conf", 0.055), ("email", 0.035),
   ("llm_usage", 0.001), ("ai_training", 3.0),
   ("meat_meals", 5.0), ("white_meat_meals", 2.0), ("veg_meals", 1.0),
   ("coffee", 0.07),
   ("hotel_night", 6.5), ("airbnb_night", 3.5), ("conference_day", 15.0),
   ("conference_meal", 4.0)]

/-- The clamped activity quantity for one key: parse the raw value with
`float` defaulting to 0 on failure, then clamp negatives to 0
(emissions.py lines 33-45). -/
def activityValue (form : String → RawValue) (key : String) : ℚ :=
  let v := floatOrZero (form key)
  if v < 0 then 0 else v

/-- The loop body of `calculate_emissions` over a factor list: for each
`(key, factor)` compute `activityValue * factor`, and when it is strictly
positive store the 2-decimal rounding under `key` and add it to the total.
The recursion builds the output dict in table order, as the Python loop
does. -/
def calcEmissions (form : String → RawValue) : List (String × ℚ) → Emissions × ℚ
  | [] => ([], 0)
  | (key, factor) :: rest =>
    let emission_value := activityValue form key * factor
    let r := calcEmissions form rest
    if emission_value > 0 then
      ((key, round2 emission_value) :: r.1, round2 emission_value + r.2)
    else r

/-- `calculate_emissions` of emissions.py: returns the sparse emissions
dict and the total of the stored (rounded) values. -/
def calculate_emissions (form : String → RawValue) : Emissions × ℚ :=
  calcEmissions form FACTORS

/-! ## Scenario rules (scenarios/rules.py) -/

/-- `MAX_FLIGHT_SUBSTITUTION`, in source order. -/
def MAX_FLIGHT_SUBSTITUTION : List (String × ℚ) :=
  [("flight_short", 0.6), ("flight_medium", 0.4), ("flight_long", 0.15)]

/-- `CAR_SUBSTITUTION_RATE`. -/
def CAR_SUBSTITUTION_RATE : ℚ := 0.3

/-- `MAX_DIGITAL_REDUCTION`. -/
def MAX_DIGITAL_REDUCTION : ℚ := 0.3

/-- `DIGITAL_SOBRIETY_POSTS` (a Python set; listed here in source order —
every use below is order-independent since each key is updated
independently). -/
def DIGITAL_SOBRIETY_POSTS : List String :=
  ["cloud", "video_conf", "email", "llm_usage"]

/-- The set `{"car_diesel", "car_essence"}` iterated by the car loops of
engine.py (a Python set; order-independent for the same reason). -/
def CAR_KEYS : List String := ["car_diesel", "car_essence"]

/-! ## Scenario engine (scenarios/engine.py) -/

/-- `copy_emissions` of scenarios/utils.py: a fresh dict with every value
converted to float — the identity on our exact-rational model. -/
def copy_emissions (e : Emissions) : Emissions := e

/-- One iteration of the flight loops of engine.py: when `flight` is
present with positive value `v`, remove `reduced = v * rate` from it and
add `reduced * 0.1` to `train_tgv` (creating that key if absent).
In `scenario_modal_substitution` the rate is the configured max rate;
in `scenario_utility_aware` it is `min(max_rate * mobility_factor,
max_rate)`. -/
def applyFlight (e : Emissions) (flight : String) (rate : ℚ) : Emissions :=
  match lookup e flight with
  | none => e
  | some v =>
    if v > 0 then
      let reduced := v * rate
      let e1 := setK e flight (v - reduced)
      setK e1 "train_tgv" (getD e1 "train_tgv" 0 + reduced * 0.1)
    else e

/-- One iteration of the car loops of engine.py: when `car` is present
with positive value `v`, remove `reduced = v * rate` from it and add the
full `reduced` to `carpool` (creating that key if absent). -/
def applyCar (e : Emissions) (car : String) (rate : ℚ) : Emissions :=
  match lookup e car with
  | none => e
  | some v =>
    if v > 0 then
      let reduced := v * rate
      let e1 := setK e car (v - reduced)
      setK e1 "carpool" (getD e1 "carpool" 0 + reduced)
    else e

/-- One iteration of the digital loops of engine.py: when `post` is
present with positive value, multiply it by `(1 - reduction)`. -/
def applyDigital (e : Emissions) (post : String) (reduction : ℚ) : Emissions :=
  match lookup e post with
  | none => e
  | some v => if v > 0 then setK e post (v * (1 - reduction)) else e

/-- `scenario_modal_substitution` of engine.py. -/
def scenario_modal_substitution (baseline : Emissions) : Emissions :=
  let e := copy_emissions baseline
  let e := MAX_FLIGHT_SUBSTITUTION.foldl (fun acc p => applyFlight acc p.1 p.2) e
  CAR_KEYS.foldl (fun acc c => applyCar acc c CAR_SUBSTITUTION_RATE) e

/-- `scenario_digital_sobriety` of engine.py. -/
def scenario_digital_sobriety (baseline : Emissions) : Emissions :=
  let e := copy_emissions baseline
  DIGITAL_SOBRIETY_POSTS.foldl (fun acc p => applyDigital acc p MAX_DIGITAL_REDUCTION) e

/-- The utility-tier selection at the head of `scenario_utility_aware`
(engine.py lines 96-104): returns `(digital_reduction, mobility_factor)`. -/
def utilityParams (utility : ℤ) : ℚ × ℚ :=
  if utility ≥ 8 then (0.1, 0.5)
  else if utility ≥ 5 then (0.25, 1.0)
  else (0.4, 1.3)

/-- `scenario_utility_aware` of engine.py. -/
def scenario_utility_aware (baseline : Emissions) (utility : ℤ) : Emissions :=
  let digital_reduction := (utilityParams utility).1
  let mobility_factor := (utilityParams utility).2
  let e := copy_emissions baseline
  let e := DIGITAL_SOBRIETY_POSTS.foldl
    (fun acc p => applyDigital acc p digital_reduction) e
  let e := MAX_FLIGHT_SUBSTITUTION.foldl
    (fun acc p => applyFlight acc p.1 (min (p.2 * mobility_factor) p.2)) e
  CAR_KEYS.foldl
    (fun acc c => applyCar acc c (CAR_SUBSTITUTION_RATE * mobility_factor)) e

/-! ## Indicator derivation (app.py, results route) -/

/-- `mobility_posts` of app.py (a set literal). -/
def mobility_posts : List String :=
  ["flight_short", "flight_medium", "flight_long",
   "car_diesel", "car_essence", "train_tgv", "train_ter"]

/-- `digital_posts` of app.py (a set literal). -/
def digital_posts : List String :=
  ["server", "cloud", "desktop", "laptops",
   "screen", "llm_usage", "ai_training"]

/-- `sum(v for k, v in e.items() if k in posts)`. -/
def sumOver (e : Emissions) (posts : List String) : ℚ :=
  ((e.filter (fun p => posts.contains p.1)).map Prod.snd).sum

/-- The profile-classification branch chain of the results route
(app.py lines 73-82). -/
def baseline_profile (e : Emissions) (total : ℚ) : String :=
  if total < 100 then "low"
  else if sumOver e digital_posts / total > 0.6 then "digital"
  else if sumOver e mobility_posts / total > 0.6 then "mobility"
  else if sumOver e digital_posts / total > 0.3 ∧ sumOver e mobility_posts / total > 0.3
    then "mixed"
  else "other"

/-- The helper `total(e) = round(sum(e.values()), 2)` of the results
route. -/
def total_round (e : Emissions) : ℚ := round2 (sumVals e)

/-- One entry of the `reductions` record:
`round((baseline_total - v) / baseline_total * 100, 2)` when
`baseline_total > 0`, else `0`. -/
def reduction_pct (baseline_total scenario_total : ℚ) : ℚ :=
  if baseline_total > 0 then round2 ((baseline_total - scenario_total) / baseline_total * 100)
  else 0

/-- `max(e.items(), key=lambda x: x[1])`: Python `max` keeps the first
of several maximal items. Defined on non-empty lists via the head as the
running best. -/
def maxItem : Emissions → String × ℚ
  | [] => ("", 0)
  | p :: rest => rest.foldl (fun best q => if q.2 > best.2 then q else best) p

/-- The dominant-category computation of the results route: the guarded
`max` over items with its 1-decimal share, `("", 0)` when the dict is
empty (falsy) or the total is not positive. -/
def dominantPair (e : Emissions) (total : ℚ) : String × ℚ :=
  if e ≠ [] ∧ total > 0 then
    ((maxItem e).1, round1 ((maxItem e).2 / total * 100))
  else ("", 0)

/-! ## Dictionary lemmas -/

theorem lookup_setK_self (e : Emissions) (k : String) (v : ℚ) :
    lookup (setK e k v) k = some v := by
  induction e with
  | nil => simp [setK, lookup]
  | cons p rest ih =>
    by_cases h : p.1 = k
    · simp [setK, lookup, h]
    · simp [setK, lookup, h, ih]

theorem lookup_setK_ne (e : Emissions) (k q : String) (v : ℚ) (h : q ≠ k) :
    lookup (setK e k v) q = lookup e q := by
  have hkq : k ≠ q := fun hh => h hh.symm
  induction e with
  | nil => simp [setK, lookup, hkq]
  | cons p rest ih =>
    by_cases hp : p.1 = k
    · simp [setK, lookup, hp, hkq]
    · by_cases hq : p.1 = q
      · simp [setK, lookup, hp, hq, h]
      · simp [setK, lookup, hp, hq, ih]

theorem getD_setK_self (e : Emissions) (k : String) (v : ℚ) :
    getD (setK e k v) k 0 = v := by
  simp [getD, lookup_setK_self]

theorem getD_setK_ne (e : Emissions) (k q : String) (v : ℚ) (h : q ≠ k) :
    getD (setK e k v) q 0 = getD e q 0 := by
  simp [getD, lookup_setK_ne _ _ _ _ h]

theorem getD_eq_of_lookup (e : Emissions) (k : String) (v : ℚ)
    (h : lookup e k = some v) : getD e k 0 = v := by
  simp [getD, h]

theorem sumVals_setK (e : Emissions) (k : String) (v : ℚ) :
    sumVals (setK e k v) = sumVals e - getD e k 0 + v := by
  induction e with
  | nil => simp [setK, sumVals, getD, lookup]
  | cons p rest ih =>
    by_cases h : p.1 = k
    · simp [setK, sumVals, getD, lookup, h]
      ring
    · simp only [setK, h, if_false, sumVals, List.map_cons, List.sum_cons, getD, lookup,
        if_neg h] at *
      rw [ih]
      ring

theorem posVal_eq_of_lookup_pos (e : Emissions) (k : String) (v : ℚ)
    (h : lookup e k = some v) (hv : v > 0) : posVal e k = v := by
  simp [posVal, h, hv]

theorem posVal_nonneg (e : Emissions) (k : String) : 0 ≤ posVal e k := by
  unfold posVal
  cases h : lookup e k with
  | none => simp
  | some v =>
    by_cases hv : v > 0 <;> simp [hv]
    · exact le_of_lt hv

/-! ## NonNeg lemmas -/

theorem nonNeg_setK (e : Emissions) (k : String) (v : ℚ)
    (he : NonNeg e) (hv : 0 ≤ v) : NonNeg (setK e k v) := by
  induction e with
  | nil => intro p hp; simp [setK] at hp; subst hp; exact hv
  | cons q rest ih =>
    have hq := he q (by simp)
    have hrest : NonNeg rest := fun p hp => he p (by simp [hp])
    by_cases h : q.1 = k
    · intro p hp
      simp [setK, h] at hp
      rcases hp with hp | hp
      · subst hp; exact hv
      · exact hrest p hp
    · intro p hp
      simp [setK, h] at hp
      rcases hp with hp | hp
      · subst hp; exact hq
      · exact ih hrest p hp

theorem lookup_nonneg (e : Emissions) (k : String) (v : ℚ)
    (he : NonNeg e) (h : lookup e k = some v) : 0 ≤ v := by
  induction e with
  | nil => simp [lookup] at h
  | cons p rest ih =>
    by_cases hp : p.1 = k
    · simp [lookup, hp] at h
      subst h; exact he p (by simp)
    · simp [lookup, hp] at h
      exact ih (fun q hq => he q (by simp [hq])) h

theorem getD_nonneg (e : Emissions) (k : String) (he : NonNeg e) :
    0 ≤ getD e k 0 := by
  unfold getD
  cases h : lookup e k with
  | none => simp
  | some v => simpa using lookup_nonneg e k v he h

/-! ## Per-step behaviour of the scenario loop bodies -/

theorem lookup_applyFlight_ne (e : Emissions) (fl : String) (r : ℚ) (k : String)
    (h1 : k ≠ fl) (h2 : k ≠ "train_tgv") :
    lookup (applyFlight e fl r) k = lookup e k := by
  unfold applyFlight
  cases h : lookup e fl with
  | none => rfl
  | some v =>
    by_cases hv : v > 0
    · simp only [hv, if_true]
      rw [lookup_setK_ne _ _ _ _ h2, lookup_setK_ne _ _ _ _ h1]
    · simp [hv]

theorem lookup_applyFlight_self (e : Emissions) (fl : String) (r : ℚ) (v : ℚ)
    (hfl : fl ≠ "train_tgv") (h : lookup e fl = some v) (hv : v > 0) :
    lookup (applyFlight e fl r) fl = some (v - v * r) := by
  unfold applyFlight
  rw [h]
  simp only [hv, if_true]
  rw [lookup_setK_ne _ _ _ _ hfl, lookup_setK_self]

theorem lookup_applyFlight_skip (e : Emissions) (fl : String) (r : ℚ) (v : ℚ)
    (h : lookup e fl = some v) (hv : ¬ v > 0) :
    lookup (applyFlight e fl r) fl = some v := by
  unfold applyFlight
  rw [h]
  simp [hv, h]

theorem lookup_applyFlight_absent (e : Emissions) (fl : String) (r : ℚ)
    (h : lookup e fl = none) :
    lookup (applyFlight e fl r) fl = none := by
  unfold applyFlight
  rw [h]
  exact h

theorem getD_applyFlight_train (e : Emissions) (fl : String) (r : ℚ)
    (hfl : fl ≠ "train_tgv") :
    getD (applyFlight e fl r) "train_tgv" 0
      = getD e "train_tgv" 0 + posVal e fl * r * 0.1 := by
  unfold applyFlight
  cases h : lookup e fl with
  | none => simp [posVal, h]
  | some v =>
    by_cases hv : v > 0
    · simp only [hv, if_true]
      rw [getD_setK_self, getD_setK_ne _ _ _ _ (fun hh => hfl hh.symm),
        posVal_eq_of_lookup_pos _ _ _ h hv]
    · simp [hv, posVal, h]

theorem sumVals_applyFlight (e : Emissions) (fl : String) (r : ℚ) :
    sumVals (applyFlight e fl r) = sumVals e - posVal e fl * r * 0.9 := by
  unfold applyFlight
  cases h : lookup e fl with
  | none => simp [posVal, h]
  | some v =>
    by_cases hv : v > 0
    · simp only [hv, if_true]
      rw [sumVals_setK, sumVals_setK, getD_eq_of_lookup _ _ _ h,
        posVal_eq_of_lookup_pos _ _ _ h hv]
      ring
    · simp [hv, posVal, h]

theorem nonNeg_applyFlight (e : Emissions) (fl : String) (r : ℚ)
    (he : NonNeg e) (hr0 : 0 ≤ r) (hr1 : r ≤ 1) :
    NonNeg (applyFlight e fl r) := by
  unfold applyFlight
  cases h : lookup e fl with
  | none => exact he
  | some v =>
    by_cases hv : v > 0
    · simp only [hv, if_true]
      have hv1 : (0:ℚ) ≤ v - v * r := by nlinarith
      have he1 : NonNeg (setK e fl (v - v * r)) := nonNeg_setK _ _ _ he hv1
      refine nonNeg_setK _ _ _ he1 ?_
      have := getD_nonneg (setK e fl (v - v * r)) "train_tgv" he1
      nlinarith
    · simp only [hv, if_false]
      exact he

theorem lookup_applyCar_ne (e : Emissions) (c : String) (r : ℚ) (k : String)
    (h1 : k ≠ c) (h2 : k ≠ "carpool") :
    lookup (applyCar e c r) k = lookup e k := by
  unfold applyCar
  cases h : lookup e c with
  | none => rfl
  | some v =>
    by_cases hv : v > 0
    · simp only [hv, if_true]
      rw [lookup_setK_ne _ _ _ _ h2, lookup_setK_ne _ _ _ _ h1]
    · simp [hv]

theorem lookup_applyCar_self (e : Emissions) (c : String) (r : ℚ) (v : ℚ)
    (hc : c ≠ "carpool") (h : lookup e c = some v) (hv : v > 0) :
    lookup (applyCar e c r) c = some (v - v * r) := by
  unfold applyCar
  rw [h]
  simp only [hv, if_true]
  rw [lookup_setK_ne _ _ _ _ hc, lookup_setK_self]

theorem lookup_applyCar_skip (e : Emissions) (c : String) (r : ℚ) (v : ℚ)
    (h : lookup e c = some v) (hv : ¬ v > 0) :
    lookup (applyCar e c r) c = some v := by
  unfold applyCar
  rw [h]
  simp [hv, h]

theorem lookup_applyCar_absent (e : Emissions) (c : String) (r : ℚ)
    (h : lookup e c = none) :
    lookup (applyCar e c r) c = none := by
  unfold applyCar
  rw [h]
  exact h

theorem getD_applyCar_carpool (e : Emissions) (c : String) (r : ℚ)
    (hc : c ≠ "carpool") :
    getD (applyCar e c r) "carpool" 0
      = getD e "carpool" 0 + posVal e c * r := by
  unfold applyCar
  cases h : lookup e c with
  | none => simp [posVal, h]
  | some v =>
    by_cases hv : v > 0
    · simp only [hv, if_true]
      rw [getD_setK_self, getD_setK_ne _ _ _ _ (fun hh => hc hh.symm),
        posVal_eq_of_lookup_pos _ _ _ h hv]
    · simp [hv, posVal, h]

theorem sumVals_applyCar (e : Emissions) (c : String) (r : ℚ) :
    sumVals (applyCar e c r) = sumVals e := by
  unfold applyCar
  cases h : lookup e c with
  | none => rfl
  | some v =>
    by_cases hv : v > 0
    · simp only [hv, if_true]
      rw [sumVals_setK, sumVals_setK, getD_eq_of_lookup _ _ _ h]
      ring
    · simp [hv]

theorem nonNeg_applyCar (e : Emissions) (c : String) (r : ℚ)
    (he : NonNeg e) (hr0 : 0 ≤ r) (hr1 : r ≤ 1) :
    NonNeg (applyCar e c r) := by
  unfold applyCar
  cases h : lookup e c with
  | none => exact he
  | some v =>
    by_cases hv : v > 0
    · simp only [hv, if_true]
      have hv1 : (0:ℚ) ≤ v - v * r := by nlinarith
      have he1 : NonNeg (setK e c (v - v * r)) := nonNeg_setK _ _ _ he hv1
      refine nonNeg_setK _ _ _ he1 ?_
      have := getD_nonneg (setK e c (v - v * r)) "carpool" he1
      nlinarith
    · simp only [hv, if_false]
      exact he

theorem lookup_applyDigital_ne (e : Emissions) (p : String) (r : ℚ) (k : String)
    (h1 : k ≠ p) :
    lookup (applyDigital e p r) k = lookup e k := by
  unfold applyDigital
  cases h : lookup e p with
  | none => rfl
  | some v =>
    by_cases hv : v > 0
    · simp only [hv, if_true]
      rw [lookup_setK_ne _ _ _ _ h1]
    · simp [hv]

theorem lookup_applyDigital_self (e : Emissions) (p : String) (r : ℚ) (v : ℚ)
    (h : lookup e p = some v) (hv : v > 0) :
    lookup (applyDigital e p r) p = some (v * (1 - r)) := by
  unfold applyDigital
  rw [h]
  simp only [hv, if_true]
  rw [lookup_setK_self]

theorem sumVals_applyDigital (e : Emissions) (p : String) (r : ℚ) :
    sumVals (applyDigital e p r) = sumVals e - posVal e p * r := by
  unfold applyDigital
  cases h : lookup e p with
  | none => simp [posVal, h]
  | some v =>
    by_cases hv : v > 0
    · simp only [hv, if_true]
      rw [sumVals_setK, getD_eq_of_lookup _ _ _ h,
        posVal_eq_of_lookup_pos _ _ _ h hv]
      ring
    · simp [hv, posVal, h]

theorem nonNeg_applyDigital (e : Emissions) (p : String) (r : ℚ)
    (he : NonNeg e) (hr1 : r ≤ 1) :
    NonNeg (applyDigital e p r) := by
  unfold applyDigital
  cases h : lookup e p with
  | none => exact he
  | some v =>
    by_cases hv : v > 0
    · simp only [hv, if_true]
      refine nonNeg_setK _ _ _ he ?_
      nlinarith
    · simp only [hv, if_false]
      exact he

/-! ## Unfolding the scenario pipelines into explicit step chains -/

theorem scenario_modal_eq (b : Emissions) :
    scenario_modal_substitution b
      = applyCar (applyCar
          (applyFlight (applyFlight (applyFlight b "flight_short" 0.6)
            "flight_medium" 0.4) "flight_long" 0.15)
          "car_diesel" 0.3) "car_essence" 0.3 := by
  simp [scenario_modal_substitution, MAX_FLIGHT_SUBSTITUTION, CAR_KEYS,
    CAR_SUBSTITUTION_RATE, copy_emissions, List.foldl]

theorem scenario_digital_eq (b : Emissions) :
    scenario_digital_sobriety b
      = applyDigital (applyDigital (applyDigital (applyDigital b
          "cloud" 0.3) "video_conf" 0.3) "email" 0.3) "llm_usage" 0.3 := by
  simp [scenario_digital_sobriety, DIGITAL_SOBRIETY_POSTS,
    MAX_DIGITAL_REDUCTION, copy_emissions, List.foldl]

theorem scenario_utility_eq (b : Emissions) (u : ℤ) :
    scenario_utility_aware b u
      = applyCar (applyCar
          (applyFlight (applyFlight (applyFlight
            (applyDigital (applyDigital (applyDigital (applyDigital b
              "cloud" (utilityParams u).1) "video_conf" (utilityParams u).1)
              "email" (utilityParams u).1) "llm_usage" (utilityParams u).1)
            "flight_short" (min (0.6 * (utilityParams u).2) 0.6))
            "flight_medium" (min (0.4 * (utilityParams u).2) 0.4))
            "flight_long" (min (0.15 * (utilityParams u).2) 0.15))
          "car_diesel" (0.3 * (utilityParams u).2))
          "car_essence" (0.3 * (utilityParams u).2) := by
  simp [scenario_utility_aware, MAX_FLIGHT_SUBSTITUTION, CAR_KEYS,
    CAR_SUBSTITUTION_RATE, DIGITAL_SOBRIETY_POSTS, copy_emissions, List.foldl]

/-! ## Tier selection -/

theorem utilityParams_high (u : ℤ) (h : u ≥ 8) :
    utilityParams u = (0.1, 0.5) := by
  unfold utilityParams
  rw [if_pos h]

theorem utilityParams_medium (u : ℤ) (h5 : 5 ≤ u) (h8 : u < 8) :
    utilityParams u = (0.25, 1.0) := by
  unfold utilityParams
  rw [if_neg (by omega), if_pos (by omega)]

theorem utilityParams_low (u : ℤ) (h : u < 5) :
    utilityParams u = (0.4, 1.3) := by
  unfold utilityParams
  rw [if_neg (by omega), if_neg (by omega)]

theorem utilityParams_bounds (u : ℤ) :
    0 ≤ (utilityParams u).1 ∧ (utilityParams u).1 ≤ 1
      ∧ 0 ≤ (utilityParams u).2 ∧ (utilityParams u).2 ≤ 13/10 := by
  unfold utilityParams
  split
  · norm_num
  · split <;> norm_num

/-- C5: Tier selection in `scenario_utility_aware` is exactly:
utility ≥ 8 selects (digital_reduction 0.10, mobility_factor 0.5);
5 ≤ utility < 8 selects (0.25, 1.0); utility < 5 selects (0.4, 1.3).
Boundary cases: utility 8 is tier high, 7 and 5 are medium, 4 is low;
negative utilities behave as tier low and utilities above 10 as tier
high. -/
theorem scar_C5 (u : ℤ) :
    (u ≥ 8 → utilityParams u = (0.1, 0.5))
    ∧ (5 ≤ u → u < 8 → utilityParams u = (0.25, 1.0))
    ∧ (u < 5 → utilityParams u = (0.4, 1.3))
    ∧ utilityParams 8 = (0.1, 0.5)
    ∧ utilityParams 7 = (0.25, 1.0)
    ∧ utilityParams 5 = (0.25, 1.0)
    ∧ utilityParams 4 = (0.4, 1.3)
    ∧ (u < 0 → utilityParams u = (0.4, 1.3))
    ∧ (u > 10 → utilityParams u = (0.1, 0.5)) := by
  refine ⟨fun h => utilityParams_high u h,
    fun h5 h8 => utilityParams_medium u h5 h8,
    fun h => utilityParams_low u h,
    utilityParams_high 8 (by omega),
    utilityParams_medium 7 (by omega) (by omega),
    utilityParams_medium 5 (by omega) (by omega),
    utilityParams_low 4 (by omega),
    fun h => utilityParams_low u (by omega),
    fun h => utilityParams_high u (by omega)⟩

/-- Witness for C5 at utility 8 and utility 4. -/
theorem scar_C5_witness :
    (8:ℤ) ≥ 8 ∧ utilityParams 8 = (0.1, 0.5)
      ∧ (4:ℤ) < 5 ∧ utilityParams 4 = (0.4, 1.3) :=
  ⟨by omega, (scar_C5 8).1 (by omega), by omega, (scar_C5 4).2.2.1 (by omega)⟩

/-! ## Fold combinators for the three loops, and their lemmas -/

/-- The flight loop: fold `applyFlight` over a rate table, applying
`rateF` to each configured max rate (`id` in modal substitution,
`min (r * mobility_factor) r` in the utility-aware scenario). -/
def flightFold (frs : List (String × ℚ)) (rateF : ℚ → ℚ) (b : Emissions) : Emissions :=
  frs.foldl (fun acc p => applyFlight acc p.1 (rateF p.2)) b

/-- The car loop: fold `applyCar` at a fixed rate over a key list. -/
def carFold (cars : List String) (r : ℚ) (b : Emissions) : Emissions :=
  cars.foldl (fun acc c => applyCar acc c r) b

/-- The digital loop: fold `applyDigital` at a fixed reduction over a key
list. -/
def digitalFold (posts : List String) (r : ℚ) (b : Emissions) : Emissions :=
  posts.foldl (fun acc p => applyDigital acc p r) b

theorem flightFold_nil (rateF : ℚ → ℚ) (b : Emissions) :
    flightFold [] rateF b = b := rfl

theorem flightFold_cons (p : String × ℚ) (rest : List (String × ℚ))
    (rateF : ℚ → ℚ) (b : Emissions) :
    flightFold (p :: rest) rateF b
      = flightFold rest rateF (applyFlight b p.1 (rateF p.2)) := rfl

theorem carFold_nil (r : ℚ) (b : Emissions) : carFold [] r b = b := rfl

theorem carFold_cons (c : String) (rest : List String) (r : ℚ) (b : Emissions) :
    carFold (c :: rest) r b = carFold rest r (applyCar b c r) := rfl

theorem digitalFold_nil (r : ℚ) (b : Emissions) : digitalFold [] r b = b := rfl

theorem digitalFold_cons (p : String) (rest : List String) (r : ℚ) (b : Emissions) :
    digitalFold (p :: rest) r b = digitalFold rest r (applyDigital b p r) := rfl

theorem scenario_modal_fold (b : Emissions) :
    scenario_modal_substitution b
      = carFold CAR_KEYS CAR_SUBSTITUTION_RATE
          (flightFold MAX_FLIGHT_SUBSTITUTION id b) := rfl

theorem scenario_digital_fold (b : Emissions) :
    scenario_digital_sobriety b
      = digitalFold DIGITAL_SOBRIETY_POSTS MAX_DIGITAL_REDUCTION b := rfl

theorem scenario_utility_fold (b : Emissions) (u : ℤ) :
    scenario_utility_aware b u
      = carFold CAR_KEYS (CAR_SUBSTITUTION_RATE * (utilityParams u).2)
          (flightFold MAX_FLIGHT_SUBSTITUTION
            (fun r => min (r * (utilityParams u).2) r)
            (digitalFold DIGITAL_SOBRIETY_POSTS (utilityParams u).1 b)) := rfl

theorem posVal_congr (e1 e2 : Emissions) (k : String)
    (h : lookup e1 k = lookup e2 k) : posVal e1 k = posVal e2 k := by
  unfold posVal
  rw [h]

theorem getD_congr (e1 e2 : Emissions) (k : String)
    (h : lookup e1 k = lookup e2 k) : getD e1 k 0 = getD e2 k 0 := by
  unfold getD
  rw [h]

theorem lookup_flightFold_notmem (frs : List (String × ℚ)) (rateF : ℚ → ℚ) :
    ∀ (b : Emissions) (k : String), (∀ p ∈ frs, k ≠ p.1) → k ≠ "train_tgv" →
      lookup (flightFold frs rateF b) k = lookup b k := by
  induction frs with
  | nil => intro b k _ _; rfl
  | cons p rest ih =>
    intro b k hk htr
    rw [flightFold_cons, ih _ k (fun q hq => hk q (List.mem_cons_of_mem _ hq)) htr,
      lookup_applyFlight_ne _ _ _ _ (hk p (List.mem_cons_self _ _)) htr]

theorem lookup_flightFold_mem (frs : List (String × ℚ)) (rateF : ℚ → ℚ) :
    ∀ (b : Emissions) (k : String) (r v : ℚ),
      (frs.map Prod.fst).Nodup → (k, r) ∈ frs →
      (∀ p ∈ frs, p.1 ≠ "train_tgv") →
      lookup b k = some v → v > 0 →
      lookup (flightFold frs rateF b) k = some (v - v * rateF r) := by
  induction frs with
  | nil => intro b k r v _ hk; simp at hk
  | cons p rest ih =>
    intro b k r v hnd hk hall hv hvpos
    rw [List.map_cons] at hnd
    have hnd1 := List.nodup_cons.mp hnd
    have htr : k ≠ "train_tgv" := by
      rcases List.mem_cons.mp hk with h | h
      · have := hall p (List.mem_cons_self _ _)
        rw [← h] at this
        exact this
      · exact hall (k, r) (List.mem_cons_of_mem _ h)
    rcases List.mem_cons.mp hk with h | h
    · have hkp : k = p.1 := by rw [← h]
      have hrp : r = p.2 := by rw [← h]
      rw [flightFold_cons,
        lookup_flightFold_notmem rest rateF _ k ?_ htr, ← hkp, ← hrp,
        lookup_applyFlight_self _ _ _ _ htr hv hvpos]
      intro q hq heq
      exact hnd1.1 (hkp ▸ heq ▸ List.mem_map.mpr ⟨q, hq, rfl⟩)
    · have hkp : k ≠ p.1 := by
        intro hkp
        exact hnd1.1 (hkp ▸ List.mem_map.mpr ⟨(k, r), h, rfl⟩)
      rw [flightFold_cons]
      refine ih _ k r v hnd1.2 h (fun q hq => hall q (List.mem_cons_of_mem _ hq)) ?_ hvpos
      rw [lookup_applyFlight_ne _ _ _ _ hkp htr, hv]

theorem lookup_flightFold_inactive (frs : List (String × ℚ)) (rateF : ℚ → ℚ) :
    ∀ (b : Emissions) (k : String), k ≠ "train_tgv" →
      (∀ v, lookup b k = some v → ¬ v > 0) →
      lookup (flightFold frs rateF b) k = lookup b k := by
  induction frs with
  | nil => intro b k _ _; rfl
  | cons p rest ih =>
    intro b k htr hnp
    have hstep : lookup (applyFlight b p.1 (rateF p.2)) k = lookup b k := by
      by_cases hkp : k = p.1
      · rw [← hkp]
        cases h : lookup b k with
        | none => exact lookup_applyFlight_absent _ _ _ h
        | some v => exact lookup_applyFlight_skip _ _ _ _ h (hnp v h)
      · exact lookup_applyFlight_ne _ _ _ _ hkp htr
    rw [flightFold_cons,
      ih _ k htr (fun v hvv => hnp v (by rwa [hstep] at hvv)), hstep]

theorem getD_flightFold_train (frs : List (String × ℚ)) (rateF : ℚ → ℚ) :
    ∀ (b : Emissions), (frs.map Prod.fst).Nodup →
      (∀ p ∈ frs, p.1 ≠ "train_tgv") →
      getD (flightFold frs rateF b) "train_tgv" 0
        = getD b "train_tgv" 0
          + (frs.map (fun p => posVal b p.1 * rateF p.2 * 0.1)).sum := by
  induction frs with
  | nil => intro b _ _; simp [flightFold_nil]
  | cons p rest ih =>
    intro b hnd hall
    rw [List.map_cons] at hnd
    have hnd1 := List.nodup_cons.mp hnd
    have hptr : p.1 ≠ "train_tgv" := hall p (List.mem_cons_self _ _)
    rw [flightFold_cons, ih _ hnd1.2 (fun q hq => hall q (List.mem_cons_of_mem _ hq)),
      getD_applyFlight_train _ _ _ hptr]
    have hmap : rest.map
          (fun q => posVal (applyFlight b p.1 (rateF p.2)) q.1 * rateF q.2 * 0.1)
        = rest.map (fun q => posVal b q.1 * rateF q.2 * 0.1) := by
      refine List.map_congr_left ?_
      intro q hq
      have hq1 : q.1 ≠ p.1 := by
        intro hh
        exact hnd1.1 (hh ▸ List.mem_map.mpr ⟨q, hq, rfl⟩)
      rw [posVal_congr _ b _ (lookup_applyFlight_ne _ _ _ _ hq1
        (hall q (List.mem_cons_of_mem _ hq)))]
    rw [hmap]
    simp only [List.map_cons, List.sum_cons]
    ring

theorem sumVals_flightFold_le (frs : List (String × ℚ)) (rateF : ℚ → ℚ) :
    ∀ (b : Emissions), (∀ p ∈ frs, 0 ≤ rateF p.2) →
      sumVals (flightFold frs rateF b) ≤ sumVals b := by
  induction frs with
  | nil => intro b _; exact le_refl _
  | cons p rest ih =>
    intro b hr
    rw [flightFold_cons]
    refine le_trans (ih _ (fun q hq => hr q (List.mem_cons_of_mem _ hq))) ?_
    rw [sumVals_applyFlight]
    have h1 : 0 ≤ posVal b p.1 := posVal_nonneg b p.1
    have h2 : 0 ≤ rateF p.2 := hr p (List.mem_cons_self _ _)
    nlinarith

theorem nonNeg_flightFold (frs : List (String × ℚ)) (rateF : ℚ → ℚ) :
    ∀ (b : Emissions), NonNeg b →
      (∀ p ∈ frs, 0 ≤ rateF p.2 ∧ rateF p.2 ≤ 1) →
      NonNeg (flightFold frs rateF b) := by
  induction frs with
  | nil => intro b hb _; exact hb
  | cons p rest ih =>
    intro b hb hr
    rw [flightFold_cons]
    exact ih _ (nonNeg_applyFlight _ _ _ hb (hr p (List.mem_cons_self _ _)).1
      (hr p (List.mem_cons_self _ _)).2) (fun q hq => hr q (List.mem_cons_of_mem _ hq))

theorem lookup_carFold_notmem (cars : List String) (r : ℚ) :
    ∀ (b : Emissions) (k : String), (∀ c ∈ cars, k ≠ c) → k ≠ "carpool" →
      lookup (carFold cars r b) k = lookup b k := by
  induction cars with
  | nil => intro b k _ _; rfl
  | cons c rest ih =>
    intro b k hk hcp
    rw [carFold_cons, ih _ k (fun q hq => hk q (List.mem_cons_of_mem _ hq)) hcp,
      lookup_applyCar_ne _ _ _ _ (hk c (List.mem_cons_self _ _)) hcp]

theorem lookup_carFold_mem (cars : List String) (r : ℚ) :
    ∀ (b : Emissions) (k : String) (v : ℚ),
      cars.Nodup → k ∈ cars → (∀ c ∈ cars, c ≠ "carpool") →
      lookup b k = some v → v > 0 →
      lookup (carFold cars r b) k = some (v - v * r) := by
  induction cars with
  | nil => intro b k v _ hk; simp at hk
  | cons c rest ih =>
    intro b k v hnd hk hall hv hvpos
    have hnd1 := List.nodup_cons.mp hnd
    have hcp : k ≠ "carpool" := hall k hk
    rcases List.mem_cons.mp hk with h | h
    · rw [carFold_cons, lookup_carFold_notmem rest r _ k ?_ hcp, ← h,
        lookup_applyCar_self _ _ _ _ hcp hv hvpos]
      intro q hq heq
      exact hnd1.1 (h ▸ heq ▸ hq)
    · have hkc : k ≠ c := by
        intro hkc
        exact hnd1.1 (hkc ▸ h)
      rw [carFold_cons]
      refine ih _ k v hnd1.2 h (fun q hq => hall q (List.mem_cons_of_mem _ hq)) ?_ hvpos
      rw [lookup_applyCar_ne _ _ _ _ hkc hcp, hv]

theorem lookup_carFold_inactive (cars : List String) (r : ℚ) :
    ∀ (b : Emissions) (k : String), k ≠ "carpool" →
      (∀ v, lookup b k = some v → ¬ v > 0) →
      lookup (carFold cars r b) k = lookup b k := by
  induction cars with
  | nil => intro b k _ _; rfl
  | cons c rest ih =>
    intro b k hcp hnp
    have hstep : lookup (applyCar b c r) k = lookup b k := by
      by_cases hkc : k = c
      · rw [← hkc]
        cases h : lookup b k with
        | none => exact lookup_applyCar_absent _ _ _ h
        | some v => exact lookup_applyCar_skip _ _ _ _ h (hnp v h)
      · exact lookup_applyCar_ne _ _ _ _ hkc hcp
    rw [carFold_cons,
      ih _ k hcp (fun v hvv => hnp v (by rwa [hstep] at hvv)), hstep]

theorem getD_carFold_carpool (cars : List String) (r : ℚ) :
    ∀ (b : Emissions), cars.Nodup → (∀ c ∈ cars, c ≠ "carpool") →
      getD (carFold cars r b) "carpool" 0
        = getD b "carpool" 0 + (cars.map (fun c => posVal b c * r)).sum := by
  induction cars with
  | nil => intro b _ _; simp [carFold_nil]
  | cons c rest ih =>
    intro b hnd hall
    have hnd1 := List.nodup_cons.mp hnd
    have hccp : c ≠ "carpool" := hall c (List.mem_cons_self _ _)
    rw [carFold_cons, ih _ hnd1.2 (fun q hq => hall q (List.mem_cons_of_mem _ hq)),
      getD_applyCar_carpool _ _ _ hccp]
    have hmap : rest.map (fun q => posVal (applyCar b c r) q * r)
        = rest.map (fun q => posVal b q * r) := by
      refine List.map_congr_left ?_
      intro q hq
      have hqc : q ≠ c := by
        intro hh
        exact hnd1.1 (hh ▸ hq)
      rw [posVal_congr _ b _ (lookup_applyCar_ne _ _ _ _ hqc
        (hall q (List.mem_cons_of_mem _ hq)))]
    rw [hmap]
    simp only [List.map_cons, List.sum_cons]
    ring

theorem sumVals_carFold (cars : List String) (r : ℚ) :
    ∀ (b : Emissions), sumVals (carFold cars r b) = sumVals b := by
  induction cars with
  | nil => intro b; rfl
  | cons c rest ih =>
    intro b
    rw [carFold_cons, ih, sumVals_applyCar]

theorem nonNeg_carFold (cars : List String) (r : ℚ) :
    ∀ (b : Emissions), NonNeg b → 0 ≤ r → r ≤ 1 →
      NonNeg (carFold cars r b) := by
  induction cars with
  | nil => intro b hb _ _; exact hb
  | cons c rest ih =>
    intro b hb hr0 hr1
    rw [carFold_cons]
    exact ih _ (nonNeg_applyCar _ _ _ hb hr0 hr1) hr0 hr1

theorem lookup_digitalFold_notmem (posts : List String) (r : ℚ) :
    ∀ (b : Emissions) (k : String), (∀ p ∈ posts, k ≠ p) →
      lookup (digitalFold posts r b) k = lookup b k := by
  induction posts with
  | nil => intro b k _; rfl
  | cons p rest ih =>
    intro b k hk
    rw [digitalFold_cons, ih _ k (fun q hq => hk q (List.mem_cons_of_mem _ hq)),
      lookup_applyDigital_ne _ _ _ _ (hk p (List.mem_cons_self _ _))]

theorem lookup_digitalFold_mem (posts : List String) (r : ℚ) :
    ∀ (b : Emissions) (k : String) (v : ℚ),
      posts.Nodup → k ∈ posts →
      lookup b k = some v → v > 0 →
      lookup (digitalFold posts r b) k = some (v * (1 - r)) := by
  induction posts with
  | nil => intro b k v _ hk; simp at hk
  | cons p rest ih =>
    intro b k v hnd hk hv hvpos
    have hnd1 := List.nodup_cons.mp hnd
    rcases List.mem_cons.mp hk with h | h
    · rw [digitalFold_cons, lookup_digitalFold_notmem rest r _ k ?_, ← h,
        lookup_applyDigital_self _ _ _ _ hv hvpos]
      intro q hq heq
      exact hnd1.1 (h ▸ heq ▸ hq)
    · have hkp : k ≠ p := by
        intro hkp
        exact hnd1.1 (hkp ▸ h)
      rw [digitalFold_cons]
      refine ih _ k v hnd1.2 h ?_ hvpos
      rw [lookup_applyDigital_ne _ _ _ _ hkp, hv]

theorem sumVals_digitalFold_le (posts : List String) (r : ℚ) :
    ∀ (b : Emissions), 0 ≤ r → sumVals (digitalFold posts r b) ≤ sumVals b := by
  induction posts with
  | nil => intro b _; exact le_refl _
  | cons p rest ih =>
    intro b hr
    rw [digitalFold_cons]
    refine le_trans (ih _ hr) ?_
    rw [sumVals_applyDigital]
    have h1 : 0 ≤ posVal b p := posVal_nonneg b p
    nlinarith

theorem nonNeg_digitalFold (posts : List String) (r : ℚ) :
    ∀ (b : Emissions), NonNeg b → r ≤ 1 →
      NonNeg (digitalFold posts r b) := by
  induction posts with
  | nil => intro b hb _; exact hb
  | cons p rest ih =>
    intro b hb hr
    rw [digitalFold_cons]
    exact ih _ (nonNeg_applyDigital _ _ _ hb hr) hr

/-! ## Scenario-level lookup and accumulation lemmas -/

theorem flight_key_props (fl : String) (r : ℚ)
    (hfl : (fl, r) ∈ MAX_FLIGHT_SUBSTITUTION) :
    (∀ q ∈ DIGITAL_SOBRIETY_POSTS, fl ≠ q) ∧ (∀ c ∈ CAR_KEYS, fl ≠ c)
      ∧ fl ≠ "carpool" ∧ fl ≠ "train_tgv" := by
  simp only [MAX_FLIGHT_SUBSTITUTION, List.mem_cons, Prod.mk.injEq,
    List.not_mem_nil, or_false] at hfl
  rcases hfl with ⟨h, _⟩ | ⟨h, _⟩ | ⟨h, _⟩ <;> subst h <;>
    exact ⟨by decide, by decide, by decide, by decide⟩

theorem car_key_props (car : String) (hcar : car ∈ CAR_KEYS) :
    (∀ q ∈ DIGITAL_SOBRIETY_POSTS, car ≠ q)
      ∧ (∀ p ∈ MAX_FLIGHT_SUBSTITUTION, car ≠ p.1)
      ∧ car ≠ "carpool" ∧ car ≠ "train_tgv" := by
  simp only [CAR_KEYS, List.mem_cons, List.not_mem_nil, or_false] at hcar
  rcases hcar with h | h <;> subst h <;>
    exact ⟨by decide, by decide, by decide, by decide⟩

theorem lookup_modal_flight (b : Emissions) (fl : String) (r v : ℚ)
    (hfl : (fl, r) ∈ MAX_FLIGHT_SUBSTITUTION)
    (hv : lookup b fl = some v) (hvpos : v > 0) :
    lookup (scenario_modal_substitution b) fl = some (v - v * r) := by
  obtain ⟨_, hc, hcp, htr⟩ := flight_key_props fl r hfl
  rw [scenario_modal_fold, lookup_carFold_notmem _ _ _ _ hc hcp]
  exact lookup_flightFold_mem _ _ _ fl r v (by decide) hfl (by decide) hv hvpos

theorem lookup_modal_car (b : Emissions) (car : String) (w : ℚ)
    (hcar : car ∈ CAR_KEYS) (hw : lookup b car = some w) (hwpos : w > 0) :
    lookup (scenario_modal_substitution b) car
      = some (w - w * CAR_SUBSTITUTION_RATE) := by
  obtain ⟨_, hf, hcp, htr⟩ := car_key_props car hcar
  rw [scenario_modal_fold]
  refine lookup_carFold_mem _ _ _ car w (by decide) hcar (by decide) ?_ hwpos
  rw [lookup_flightFold_notmem _ _ _ _ hf htr, hw]

theorem getD_modal_train (b : Emissions) :
    getD (scenario_modal_substitution b) "train_tgv" 0
      = getD b "train_tgv" 0
        + (posVal b "flight_short" * 0.6 + posVal b "flight_medium" * 0.4
           + posVal b "flight_long" * 0.15) * 0.1 := by
  rw [scenario_modal_fold,
    getD_congr _ (flightFold MAX_FLIGHT_SUBSTITUTION id b) _
      (lookup_carFold_notmem _ _ _ _ (by decide) (by decide)),
    getD_flightFold_train _ _ _ (by decide) (by decide)]
  simp only [MAX_FLIGHT_SUBSTITUTION, List.map_cons, List.map_nil, List.sum_cons,
    List.sum_nil, id]
  ring

theorem getD_modal_carpool (b : Emissions) :
    getD (scenario_modal_substitution b) "carpool" 0
      = getD b "carpool" 0
        + (posVal b "car_diesel" + posVal b "car_essence")
          * CAR_SUBSTITUTION_RATE := by
  rw [scenario_modal_fold, getD_carFold_carpool _ _ _ (by decide) (by decide)]
  have hX : ∀ c ∈ CAR_KEYS,
      lookup (flightFold MAX_FLIGHT_SUBSTITUTION id b) c = lookup b c := by
    intro c hc
    obtain ⟨_, hf, _, htr⟩ := car_key_props c hc
    exact lookup_flightFold_notmem _ _ _ _ hf htr
  rw [getD_congr _ b _ (lookup_flightFold_notmem _ _ _ _ (by decide) (by decide))]
  simp only [CAR_KEYS, List.map_cons, List.map_nil, List.sum_cons, List.sum_nil]
  rw [posVal_congr _ b _ (hX "car_diesel" (by decide)),
    posVal_congr _ b _ (hX "car_essence" (by decide))]
  ring

theorem lookup_modal_untouched (b : Emissions) (k : String)
    (hf : ∀ p ∈ MAX_FLIGHT_SUBSTITUTION, k ≠ p.1)
    (hc : ∀ c ∈ CAR_KEYS, k ≠ c)
    (htr : k ≠ "train_tgv") (hcp : k ≠ "carpool") :
    lookup (scenario_modal_substitution b) k = lookup b k := by
  rw [scenario_modal_fold, lookup_carFold_notmem _ _ _ _ hc hcp,
    lookup_flightFold_notmem _ _ _ _ hf htr]

theorem lookup_modal_flight_inactive (b : Emissions) (fl : String) (r : ℚ)
    (hfl : (fl, r) ∈ MAX_FLIGHT_SUBSTITUTION)
    (hnp : ∀ v, lookup b fl = some v → ¬ v > 0) :
    lookup (scenario_modal_substitution b) fl = lookup b fl := by
  obtain ⟨_, hc, hcp, htr⟩ := flight_key_props fl r hfl
  rw [scenario_modal_fold, lookup_carFold_notmem _ _ _ _ hc hcp,
    lookup_flightFold_inactive _ _ _ _ htr hnp]

theorem lookup_modal_car_inactive (b : Emissions) (car : String)
    (hcar : car ∈ CAR_KEYS)
    (hnp : ∀ v, lookup b car = some v → ¬ v > 0) :
    lookup (scenario_modal_substitution b) car = lookup b car := by
  obtain ⟨_, hf, hcp, htr⟩ := car_key_props car hcar
  rw [scenario_modal_fold,
    lookup_carFold_inactive _ _ _ _ hcp
      (by rw [lookup_flightFold_notmem _ _ _ _ hf htr]; exact hnp),
    lookup_flightFold_notmem _ _ _ _ hf htr]

theorem lookup_utility_flight (b : Emissions) (u : ℤ) (fl : String) (r v : ℚ)
    (hfl : (fl, r) ∈ MAX_FLIGHT_SUBSTITUTION)
    (hv : lookup b fl = some v) (hvpos : v > 0) :
    lookup (scenario_utility_aware b u) fl
      = some (v - v * min (r * (utilityParams u).2) r) := by
  obtain ⟨hd, hc, hcp, htr⟩ := flight_key_props fl r hfl
  rw [scenario_utility_fold, lookup_carFold_notmem _ _ _ _ hc hcp]
  refine lookup_flightFold_mem _ _ _ fl r v (by decide) hfl (by decide) ?_ hvpos
  rw [lookup_digitalFold_notmem _ _ _ _ hd, hv]

theorem lookup_utility_car (b : Emissions) (u : ℤ) (car : String) (w : ℚ)
    (hcar : car ∈ CAR_KEYS) (hw : lookup b car = some w) (hwpos : w > 0) :
    lookup (scenario_utility_aware b u) car
      = some (w - w * (CAR_SUBSTITUTION_RATE * (utilityParams u).2)) := by
  obtain ⟨hd, hf, hcp, htr⟩ := car_key_props car hcar
  rw [scenario_utility_fold]
  refine lookup_carFold_mem _ _ _ car w (by decide) hcar (by decide) ?_ hwpos
  rw [lookup_flightFold_notmem _ _ _ _ hf htr, lookup_digitalFold_notmem _ _ _ _ hd, hw]

theorem getD_utility_carpool (b : Emissions) (u : ℤ) :
    getD (scenario_utility_aware b u) "carpool" 0
      = getD b "carpool" 0
        + (posVal b "car_diesel" + posVal b "car_essence")
          * (CAR_SUBSTITUTION_RATE * (utilityParams u).2) := by
  rw [scenario_utility_fold, getD_carFold_carpool _ _ _ (by decide) (by decide)]
  have hX : ∀ c ∈ CAR_KEYS,
      lookup (flightFold MAX_FLIGHT_SUBSTITUTION
          (fun r => min (r * (utilityParams u).2) r)
          (digitalFold DIGITAL_SOBRIETY_POSTS (utilityParams u).1 b)) c
        = lookup b c := by
    intro c hc
    obtain ⟨hd, hf, _, htr⟩ := car_key_props c hc
    rw [lookup_flightFold_notmem _ _ _ _ hf htr, lookup_digitalFold_notmem _ _ _ _ hd]
  have hXcp : lookup (flightFold MAX_FLIGHT_SUBSTITUTION
        (fun r => min (r * (utilityParams u).2) r)
        (digitalFold DIGITAL_SOBRIETY_POSTS (utilityParams u).1 b)) "carpool"
      = lookup b "carpool" := by
    rw [lookup_flightFold_notmem _ _ _ _ (by decide) (by decide),
      lookup_digitalFold_notmem _ _ _ _ (by decide)]
  rw [getD_congr _ b _ hXcp]
  simp only [CAR_KEYS, List.map_cons, List.map_nil, List.sum_cons, List.sum_nil]
  rw [posVal_congr _ b _ (hX "car_diesel" (by decide)),
    posVal_congr _ b _ (hX "car_essence" (by decide))]
  ring

/-! ## Claims -/

/-- C4: scenario_digital_sobriety multiplies every key of the adjustable
set {cloud, video_conf, email, llm_usage} that has positive value by 0.7,
and leaves every key outside that set (including digital-structural keys
such as server and ai_training) unchanged; in particular for baseline
{cloud: 100, server: 200} the result is cloud = 70, server = 200, total
270. -/
theorem scar_C4 (baseline : Emissions) :
    (∀ p ∈ DIGITAL_SOBRIETY_POSTS, ∀ v : ℚ, lookup baseline p = some v → v > 0 →
      lookup (scenario_digital_sobriety baseline) p = some (v * 0.7))
    ∧ (∀ k, k ∉ DIGITAL_SOBRIETY_POSTS →
      lookup (scenario_digital_sobriety baseline) k = lookup baseline k)
    ∧ scenario_digital_sobriety [("cloud", 100), ("server", 200)]
        = [("cloud", 70), ("server", 200)]
    ∧ sumVals (scenario_digital_sobriety [("cloud", 100), ("server", 200)]) = 270 := by
  refine ⟨?_, ?_, ?_, ?_⟩
  · intro p hp v hv hvpos
    rw [scenario_digital_fold,
      lookup_digitalFold_mem DIGITAL_SOBRIETY_POSTS _ baseline p v (by decide) hp hv hvpos]
    norm_num [MAX_DIGITAL_REDUCTION]
  · intro k hk
    rw [scenario_digital_fold]
    exact lookup_digitalFold_notmem _ _ _ k (fun q hq heq => hk (heq ▸ hq))
  · simp +decide [scenario_digital_sobriety, DIGITAL_SOBRIETY_POSTS, MAX_DIGITAL_REDUCTION,
      copy_emissions, List.foldl, applyDigital, lookup, setK, getD]
    norm_num
  · rw [show scenario_digital_sobriety [("cloud", 100), ("server", 200)]
        = [("cloud", 70), ("server", 200)] from ?_]
    · simp [sumVals]
      norm_num
    · simp +decide [scenario_digital_sobriety, DIGITAL_SOBRIETY_POSTS, MAX_DIGITAL_REDUCTION,
        copy_emissions, List.foldl, applyDigital, lookup, setK, getD]
      norm_num

/-- Witness for C4 at baseline {cloud: 100}. -/
theorem scar_C4_witness :
    ("cloud" ∈ DIGITAL_SOBRIETY_POSTS)
    ∧ lookup [(("cloud" : String), (100 : ℚ))] "cloud" = some 100
    ∧ (100 : ℚ) > 0
    ∧ lookup (scenario_digital_sobriety [("cloud", 100)]) "cloud" = some (100 * 0.7) :=
  ⟨by decide, by simp [lookup], by norm_num,
    (scar_C4 [("cloud", 100)]).1 "cloud" (by decide) 100 (by simp [lookup]) (by norm_num)⟩

/-- C2: in scenario_utility_aware, for every baseline and every utility
score, each flight key with configured max rate r and positive value v
is reduced by v * min(r * mobility_factor, r) (so for any
mobility_factor ≥ 1 the effective rate is exactly r), each
ground-vehicle key with positive value w is reduced by
w * 0.3 * mobility_factor with no min cap (so for the low tier where
mobility_factor = 1.3 the car reduction strictly exceeds the flat 0.3
rate), and the car reductions are reallocated in full to the carpool
key.  The conjuncts are quantified independently: each holds whether or
not any other flight or car key is present. -/
theorem scar_C2 (baseline : Emissions) (utility : ℤ) :
    (∀ fl r, (fl, r) ∈ MAX_FLIGHT_SUBSTITUTION → ∀ v : ℚ,
      lookup baseline fl = some v → v > 0 →
      lookup (scenario_utility_aware baseline utility) fl
        = some (v - v * min (r * (utilityParams utility).2) r))
    ∧ (∀ fl r, (fl, r) ∈ MAX_FLIGHT_SUBSTITUTION →
        (utilityParams utility).2 ≥ 1 → min (r * (utilityParams utility).2) r = r)
    ∧ (∀ car ∈ CAR_KEYS, ∀ w : ℚ, lookup baseline car = some w → w > 0 →
      lookup (scenario_utility_aware baseline utility) car
        = some (w - w * (0.3 * (utilityParams utility).2)))
    ∧ (utility < 5 → ∀ w : ℚ, w > 0 →
        w * (0.3 * (utilityParams utility).2) > w * 0.3)
    ∧ getD (scenario_utility_aware baseline utility) "carpool" 0
      = getD baseline "carpool" 0
        + (posVal baseline "car_diesel" + posVal baseline "car_essence")
          * (0.3 * (utilityParams utility).2) := by
  refine ⟨fun fl r hfl v hv hvpos =>
      lookup_utility_flight baseline utility fl r v hfl hv hvpos,
    ?_,
    fun car hcar w hw hwpos =>
      lookup_utility_car baseline utility car w hcar hw hwpos,
    ?_,
    getD_utility_carpool baseline utility⟩
  · intro fl r hfl hmf
    have hr0 : 0 ≤ r := by
      simp only [MAX_FLIGHT_SUBSTITUTION, List.mem_cons, Prod.mk.injEq,
        List.not_mem_nil, or_false] at hfl
      rcases hfl with ⟨_, hr⟩ | ⟨_, hr⟩ | ⟨_, hr⟩ <;> rw [hr] <;> norm_num
    refine min_eq_right ?_
    nlinarith
  · intro hu w hwpos
    rw [utilityParams_low utility hu]
    nlinarith

/-- Witness for C2 at utility 0 (tier low, mobility_factor 1.3), on a
flights-only baseline {flight_long: 1000} for the flight clause and a
cars-only baseline {car_diesel: 100} for the car clause. -/
theorem scar_C2_witness :
    ((("flight_long" : String), (0.15 : ℚ)) ∈ MAX_FLIGHT_SUBSTITUTION)
    ∧ lookup [(("flight_long" : String), (1000 : ℚ))] "flight_long" = some 1000
    ∧ (1000 : ℚ) > 0
    ∧ lookup (scenario_utility_aware [(("flight_long" : String), (1000 : ℚ))] 0)
        "flight_long"
      = some (1000 - 1000 * min (0.15 * (utilityParams 0).2) 0.15)
    ∧ ("car_diesel" ∈ CAR_KEYS)
    ∧ lookup [(("car_diesel" : String), (100 : ℚ))] "car_diesel" = some 100
    ∧ (100 : ℚ) > 0
    ∧ lookup (scenario_utility_aware [(("car_diesel" : String), (100 : ℚ))] 0)
        "car_diesel"
      = some (100 - 100 * (0.3 * (utilityParams 0).2)) :=
  ⟨by simp [MAX_FLIGHT_SUBSTITUTION], by simp +decide [lookup], by norm_num,
    (scar_C2 [("flight_long", 1000)] 0).1 "flight_long" 0.15
      (by simp [MAX_FLIGHT_SUBSTITUTION]) 1000 (by simp +decide [lookup]) (by norm_num),
    by decide, by simp +decide [lookup], by norm_num,
    (scar_C2 [("car_diesel", 100)] 0).2.2.1 "car_diesel" (by decide) 100
      (by simp +decide [lookup]) (by norm_num)⟩

/-- C3: scenario_modal_substitution removes v*r from each flight key with
configured max rate r and positive value v and adds 0.1*(v*r) to
train_tgv (created if absent); removes v*0.3 from each of car_diesel and
car_essence with positive value v and adds the full v*0.3 to carpool
(created if absent); source keys with non-positive or absent values and
all unrelated keys are untouched.  In particular for baseline
{flight_long: 1000, train_tgv: 0} the result is flight_long = 850,
train_tgv = 15, total 865. -/
theorem scar_C3 (baseline : Emissions) :
    (∀ fl r, (fl, r) ∈ MAX_FLIGHT_SUBSTITUTION → ∀ v : ℚ,
      lookup baseline fl = some v → v > 0 →
      lookup (scenario_modal_substitution baseline) fl = some (v - v * r))
    ∧ (∀ car ∈ CAR_KEYS, ∀ v : ℚ, lookup baseline car = some v → v > 0 →
      lookup (scenario_modal_substitution baseline) car = some (v - v * 0.3))
    ∧ getD (scenario_modal_substitution baseline) "train_tgv" 0
        = getD baseline "train_tgv" 0
          + 0.1 * (posVal baseline "flight_short" * 0.6
            + posVal baseline "flight_medium" * 0.4
            + posVal baseline "flight_long" * 0.15)
    ∧ getD (scenario_modal_substitution baseline) "carpool" 0
        = getD baseline "carpool" 0
          + (posVal baseline "car_diesel" + posVal baseline "car_essence") * 0.3
    ∧ (∀ fl r, (fl, r) ∈ MAX_FLIGHT_SUBSTITUTION →
        (∀ v, lookup baseline fl = some v → ¬ v > 0) →
        lookup (scenario_modal_substitution baseline) fl = lookup baseline fl)
    ∧ (∀ car ∈ CAR_KEYS, (∀ v, lookup baseline car = some v → ¬ v > 0) →
        lookup (scenario_modal_substitution baseline) car = lookup baseline car)
    ∧ (∀ k, (∀ p ∈ MAX_FLIGHT_SUBSTITUTION, k ≠ p.1) → (∀ c ∈ CAR_KEYS, k ≠ c) →
        k ≠ "train_tgv" → k ≠ "carpool" →
        lookup (scenario_modal_substitution baseline) k = lookup baseline k)
    ∧ scenario_modal_substitution [("flight_long", 1000), ("train_tgv", 0)]
        = [("flight_long", 850), ("train_tgv", 15)]
    ∧ sumVals (scenario_modal_substitution [("flight_long", 1000), ("train_tgv", 0)])
        = 865
    ∧ lookup (scenario_modal_substitution [("flight_long", 1000)]) "train_tgv"
        = some 15 := by
  have hconc : scenario_modal_substitution [("flight_long", 1000), ("train_tgv", 0)]
      = [("flight_long", 850), ("train_tgv", 15)] := by
    simp +decide [scenario_modal_substitution, MAX_FLIGHT_SUBSTITUTION, CAR_KEYS,
      CAR_SUBSTITUTION_RATE, copy_emissions, List.foldl, applyFlight, applyCar,
      lookup, setK, getD]
    norm_num
  refine ⟨fun fl r hfl v hv hvpos => lookup_modal_flight baseline fl r v hfl hv hvpos,
    ?_, ?_, ?_,
    fun fl r hfl hnp => lookup_modal_flight_inactive baseline fl r hfl hnp,
    fun car hcar hnp => lookup_modal_car_inactive baseline car hcar hnp,
    fun k hf hc htr hcp => lookup_modal_untouched baseline k hf hc htr hcp,
    hconc, ?_, ?_⟩
  · intro car hcar v hv hvpos
    exact lookup_modal_car baseline car v hcar hv hvpos
  · rw [getD_modal_train]
    ring
  · rw [getD_modal_carpool]
    norm_num [CAR_SUBSTITUTION_RATE]
  · rw [hconc]
    simp [sumVals]
    norm_num
  · simp +decide [scenario_modal_substitution, MAX_FLIGHT_SUBSTITUTION, CAR_KEYS,
      CAR_SUBSTITUTION_RATE, copy_emissions, List.foldl, applyFlight, applyCar,
      lookup, setK, getD]
    norm_num

/-- Witness for C3: the active-flight clause at baseline
{flight_long: 1000, train_tgv: 0}. -/
theorem scar_C3_witness :
    ((("flight_long" : String), (0.15 : ℚ)) ∈ MAX_FLIGHT_SUBSTITUTION)
    ∧ lookup [(("flight_long" : String), (1000 : ℚ)), ("train_tgv", 0)]
        "flight_long" = some 1000
    ∧ (1000 : ℚ) > 0
    ∧ lookup (scenario_modal_substitution
          [(("flight_long" : String), (1000 : ℚ)), ("train_tgv", 0)]) "flight_long"
        = some (1000 - 1000 * 0.15) :=
  ⟨by simp [MAX_FLIGHT_SUBSTITUTION], by simp +decide [lookup], by norm_num,
    (scar_C3 [("flight_long", 1000), ("train_tgv", 0)]).1 "flight_long" 0.15
      (by simp [MAX_FLIGHT_SUBSTITUTION]) 1000 (by simp +decide [lookup]) (by norm_num)⟩

theorem modal_flight_rates (p : String × ℚ) (hp : p ∈ MAX_FLIGHT_SUBSTITUTION) :
    0 ≤ p.2 ∧ p.2 ≤ 1 := by
  simp only [MAX_FLIGHT_SUBSTITUTION, List.mem_cons, List.not_mem_nil, or_false] at hp
  rcases hp with h | h | h <;> rw [h] <;> norm_num

/-- C6: for every baseline whose values are all non-negative (and every
utility score) every value in the output of each of the three scenario
functions is non-negative, including the accumulated train_tgv and
carpool destinations. -/
theorem scar_C6 (baseline : Emissions) (utility : ℤ) (h : NonNeg baseline) :
    NonNeg (scenario_modal_substitution baseline)
    ∧ NonNeg (scenario_digital_sobriety baseline)
    ∧ NonNeg (scenario_utility_aware baseline utility) := by
  obtain ⟨hd0, hd1, hm0, hm1⟩ := utilityParams_bounds utility
  refine ⟨?_, ?_, ?_⟩
  · rw [scenario_modal_fold]
    refine nonNeg_carFold _ _ _ (nonNeg_flightFold _ _ _ h ?_)
      (by norm_num [CAR_SUBSTITUTION_RATE]) (by norm_num [CAR_SUBSTITUTION_RATE])
    intro p hp
    simpa using modal_flight_rates p hp
  · rw [scenario_digital_fold]
    exact nonNeg_digitalFold _ _ _ h (by norm_num [MAX_DIGITAL_REDUCTION])
  · rw [scenario_utility_fold]
    refine nonNeg_carFold _ _ _
      (nonNeg_flightFold _ _ _ (nonNeg_digitalFold _ _ _ h (by linarith)) ?_)
      ?_ ?_
    · intro p hp
      obtain ⟨h0, h1⟩ := modal_flight_rates p hp
      constructor
      · exact le_min (by nlinarith) h0
      · exact le_trans (min_le_right _ _) h1
    · have : (0:ℚ) ≤ CAR_SUBSTITUTION_RATE := by norm_num [CAR_SUBSTITUTION_RATE]
      nlinarith
    · have : CAR_SUBSTITUTION_RATE = (0.3 : ℚ) := rfl
      nlinarith [this]

/-- Witness for C6 at baseline {flight_long: 1000} and utility 0. -/
theorem scar_C6_witness :
    NonNeg [(("flight_long" : String), (1000 : ℚ))]
    ∧ NonNeg (scenario_modal_substitution [(("flight_long" : String), (1000 : ℚ))]) :=
  have hb : NonNeg [(("flight_long" : String), (1000 : ℚ))] := by
    intro p hp
    simp at hp
    subst hp
    norm_num
  ⟨hb, (scar_C6 [("flight_long", 1000)] 0 hb).1⟩

/-- C7: for every baseline with non-negative values, the total of
scenario_modal_substitution is at most the baseline total: each flight
shift re-adds only 10% of the removed mass to rail and each car shift
re-adds exactly 100% to carpool. -/
theorem scar_C7 (baseline : Emissions) (h : NonNeg baseline) :
    sumVals (scenario_modal_substitution baseline) ≤ sumVals baseline := by
  rw [scenario_modal_fold, sumVals_carFold]
  refine sumVals_flightFold_le _ _ _ ?_
  intro p hp
  simpa using (modal_flight_rates p hp).1

/-- Witness for C7 at baseline {flight_long: 1000}. -/
theorem scar_C7_witness :
    NonNeg [(("flight_long" : String), (1000 : ℚ))]
    ∧ sumVals (scenario_modal_substitution [(("flight_long" : String), (1000 : ℚ))])
        ≤ sumVals [(("flight_long" : String), (1000 : ℚ))] :=
  have hb : NonNeg [(("flight_long" : String), (1000 : ℚ))] := by
    intro p hp
    simp at hp
    subst hp
    norm_num
  ⟨hb, scar_C7 [("flight_long", 1000)] hb⟩

/-- C10: the conservation bound also holds for the other two scenarios:
for every baseline with non-negative values and every utility score the
totals of scenario_digital_sobriety and scenario_utility_aware are each
at most the baseline total. -/
theorem scar_C10 (baseline : Emissions) (utility : ℤ) (h : NonNeg baseline) :
    sumVals (scenario_digital_sobriety baseline) ≤ sumVals baseline
    ∧ sumVals (scenario_utility_aware baseline utility) ≤ sumVals baseline := by
  obtain ⟨hd0, hd1, hm0, hm1⟩ := utilityParams_bounds utility
  refine ⟨?_, ?_⟩
  · rw [scenario_digital_fold]
    exact sumVals_digitalFold_le _ _ _ (by norm_num [MAX_DIGITAL_REDUCTION])
  · rw [scenario_utility_fold, sumVals_carFold]
    refine le_trans (sumVals_flightFold_le _ _ _ ?_) (sumVals_digitalFold_le _ _ _ hd0)
    intro p hp
    obtain ⟨h0, _⟩ := modal_flight_rates p hp
    exact le_min (by nlinarith) h0

/-- Witness for C10 at baseline {cloud: 100} and utility 0. -/
theorem scar_C10_witness :
    NonNeg [(("cloud" : String), (100 : ℚ))]
    ∧ sumVals (scenario_digital_sobriety [(("cloud" : String), (100 : ℚ))])
        ≤ sumVals [(("cloud" : String), (100 : ℚ))] :=
  have hb : NonNeg [(("cloud" : String), (100 : ℚ))] := by
    intro p hp
    simp at hp
    subst hp
    norm_num
  ⟨hb, (scar_C10 [("cloud", 100)] 0 hb).1⟩

/-- C8: the profile classification evaluates its branches strictly in
order with first match winning — total < 100 gives "low"; else
digital share > 0.6 gives "digital"; else mobility share > 0.6 gives
"mobility"; else both shares > 0.3 gives "mixed"; else "other" — with
strict comparisons throughout.  For the empty baseline the profile is
"low", all totals are 0, all reductions are 0, and the dominant key is
empty with share 0. -/
theorem scar_C8 (e : Emissions) (total : ℚ) :
    (total < 100 → baseline_profile e total = "low")
    ∧ (¬ total < 100 → sumOver e digital_posts / total > 0.6 →
        baseline_profile e total = "digital")
    ∧ (¬ total < 100 → ¬ sumOver e digital_posts / total > 0.6 →
        sumOver e mobility_posts / total > 0.6 →
        baseline_profile e total = "mobility")
    ∧ (¬ total < 100 → ¬ sumOver e digital_posts / total > 0.6 →
        ¬ sumOver e mobility_posts / total > 0.6 →
        sumOver e digital_posts / total > 0.3 →
        sumOver e mobility_posts / total > 0.3 →
        baseline_profile e total = "mixed")
    ∧ (¬ total < 100 → ¬ sumOver e digital_posts / total > 0.6 →
        ¬ sumOver e mobility_posts / total > 0.6 →
        ¬ (sumOver e digital_posts / total > 0.3
            ∧ sumOver e mobility_posts / total > 0.3) →
        baseline_profile e total = "other")
    ∧ baseline_profile [] (total_round []) = "low"
    ∧ total_round [] = 0
    ∧ total_round (scenario_modal_substitution []) = 0
    ∧ total_round (scenario_digital_sobriety []) = 0
    ∧ (∀ u : ℤ, total_round (scenario_utility_aware [] u) = 0)
    ∧ (∀ t : ℚ, reduction_pct 0 t = 0)
    ∧ dominantPair [] 0 = ("", 0) := by
  have hzero : total_round [] = 0 := by
    norm_num [total_round, sumVals, round2, roundHalfEven]
  have hmodal : scenario_modal_substitution [] = [] := rfl
  have hdig : scenario_digital_sobriety [] = [] := rfl
  have hutil : ∀ u : ℤ, scenario_utility_aware [] u = [] := fun u => rfl
  refine ⟨?_, ?_, ?_, ?_, ?_, ?_, hzero, ?_, ?_, ?_, ?_, ?_⟩
  · intro h
    unfold baseline_profile
    rw [if_pos h]
  · intro h1 h2
    unfold baseline_profile
    rw [if_neg h1, if_pos h2]
  · intro h1 h2 h3
    unfold baseline_profile
    rw [if_neg h1, if_neg h2, if_pos h3]
  · intro h1 h2 h3 h4 h5
    unfold baseline_profile
    rw [if_neg h1, if_neg h2, if_neg h3, if_pos ⟨h4, h5⟩]
  · intro h1 h2 h3 h4
    unfold baseline_profile
    rw [if_neg h1, if_neg h2, if_neg h3, if_neg h4]
  · rw [hzero]
    unfold baseline_profile
    rw [if_pos (by norm_num)]
  · rw [hmodal, hzero]
  · rw [hdig, hzero]
  · intro u
    rw [hutil u, hzero]
  · intro t
    unfold reduction_pct
    rw [if_neg (by norm_num)]
  · unfold dominantPair
    rw [if_neg (by simp)]

/-- Witness for C8: total 50 is below the floor and classifies as
"low". -/
theorem scar_C8_witness :
    ((50 : ℚ) < 100) ∧ baseline_profile [] 50 = "low" :=
  ⟨by norm_num, (scar_C8 [] 50).1 (by norm_num)⟩

/-! ## Membership in the calculator output -/

theorem calc_isSome_of_pos (form : String → RawValue) :
    ∀ (L : List (String × ℚ)) (k : String) (f : ℚ),
      (k, f) ∈ L → activityValue form k * f > 0 →
      (lookup (calcEmissions form L).1 k).isSome := by
  intro L
  induction L with
  | nil => intro k f hk; simp at hk
  | cons p rest ih =>
    intro k f hk hpos
    obtain ⟨key, factor⟩ := p
    rcases List.mem_cons.mp hk with h | h
    · obtain ⟨hk1, hf1⟩ := Prod.mk.injEq .. ▸ h
      subst hk1
      subst hf1
      simp only [calcEmissions, if_pos hpos, lookup]
      simp
    · by_cases hev : activityValue form key * factor > 0
      · simp only [calcEmissions, if_pos hev, lookup]
        by_cases hkk : key = k
        · simp [hkk]
        · simpa [hkk] using ih k f h hpos
      · simp only [calcEmissions, if_neg hev]
        exact ih k f h hpos

theorem calc_pos_of_isSome (form : String → RawValue) :
    ∀ (L : List (String × ℚ)) (k : String),
      (lookup (calcEmissions form L).1 k).isSome →
      ∃ f, (k, f) ∈ L ∧ activityValue form k * f > 0 := by
  intro L
  induction L with
  | nil => intro k hk; simp [calcEmissions, lookup] at hk
  | cons p rest ih =>
    intro k hk
    obtain ⟨key, factor⟩ := p
    by_cases hev : activityValue form key * factor > 0
    · by_cases hkk : key = k
      · subst hkk
        exact ⟨factor, List.mem_cons_self _ _, hev⟩
      · simp only [calcEmissions, if_pos hev, lookup, if_neg hkk] at hk
        obtain ⟨f, hf, hp⟩ := ih k hk
        exact ⟨f, List.mem_cons_of_mem _ hf, hp⟩
    · simp only [calcEmissions, if_neg hev] at hk
      obtain ⟨f, hf, hp⟩ := ih k hk
      exact ⟨f, List.mem_cons_of_mem _ hf, hp⟩

/-- The concrete form of the C1 counterexample: llm_usage = "1"
(`float("1") = 1`, `int("1") = 1`), everything else absent. -/
def cexFormC1 : String → RawValue :=
  fun k => if k = "llm_usage" then .val (some 1) (some 1) else .missing

/-- C1 counterexample: with quantity 1 for llm_usage (factor 0.001) the
unrounded amount 0.001 is strictly positive, so the key is included —
but its stored rounded amount is 0.  The output therefore contains a key
whose rounded amount equals 0, refuting the claim that membership is
equivalent to a positive rounded amount. -/
theorem scar_C1_cex :
    (calculate_emissions cexFormC1).1 = [("llm_usage", 0)]
    ∧ activityValue cexFormC1 "llm_usage" * 0.001 > 0
    ∧ round2 (activityValue cexFormC1 "llm_usage" * 0.001) = 0 := by
  refine ⟨?_, ?_, ?_⟩
  · simp +decide [calculate_emissions, calcEmissions, FACTORS, activityValue,
      floatOrZero, cexFormC1, round2, roundHalfEven]
    norm_num [Int.fract]
  · norm_num [activityValue, cexFormC1, floatOrZero]
  · norm_num [activityValue, cexFormC1, floatOrZero, round2, roundHalfEven, Int.fract]

/-- C1 amended: the output of calculate_emissions contains an activity
key iff the table assigns it a factor and the per-key amount BEFORE
rounding (clamped activity value times factor) is strictly positive.
The stored value is the 2-decimal rounding of that amount, which may be
0 when the amount is positive but below 0.005. -/
theorem scar_C1_amended (form : String → RawValue) (k : String) :
    (lookup (calculate_emissions form).1 k).isSome
      ↔ ∃ f, (k, f) ∈ FACTORS ∧ activityValue form k * f > 0 :=
  ⟨fun h => calc_pos_of_isSome form FACTORS k h,
   fun ⟨f, hf, hp⟩ => calc_isSome_of_pos form FACTORS k f hf hp⟩

/-- The concrete form of the C9 counterexample: mission_utility = "abc"
(`float("abc")` and `int("abc")` both raise), everything else absent. -/
def cexFormC9 : String → RawValue :=
  fun k => if k = "mission_utility" then .val none none else .missing

/-- C9 counterexample: with mission_utility a non-numeric string the
results route's `int(form_data.get("mission_utility", 0))` raises
(modelled by `none`), so the utility parse does NOT degrade silently to
zero — while the emissions computation on the same form still silently
yields the empty mapping and total 0. -/
theorem scar_C9_cex :
    parse_utility cexFormC9 = none
    ∧ (calculate_emissions cexFormC9).1 = []
    ∧ (calculate_emissions cexFormC9).2 = 0 := by
  refine ⟨rfl, ?_, ?_⟩ <;>
    simp +decide [calculate_emissions, calcEmissions, FACTORS, activityValue,
      floatOrZero, cexFormC9]

/-- C9 amended: every Factor-Table key whose raw value is absent,
non-numeric, or negative contributes exactly 0 — it is omitted from the
output mapping entirely (silent clamp, no error); and a missing
mission_utility field defaults to utility 0.  (A non-numeric
mission_utility string, by contrast, raises: see the counterexample.) -/
theorem scar_C9_amended (form : String → RawValue) (key : String) (factor : ℚ)
    (hk : (key, factor) ∈ FACTORS)
    (hbad : form key = .missing
      ∨ (∃ ip, form key = .val none ip)
      ∨ (∃ q ip, form key = .val (some q) ip ∧ q < 0)) :
    lookup (calculate_emissions form).1 key = none
    ∧ parse_utility (fun _ => .missing) = some 0 := by
  have hav : activityValue form key = 0 := by
    rcases hbad with h | ⟨ip, h⟩ | ⟨q, ip, h, hq⟩
    · simp [activityValue, floatOrZero, h]
    · simp [activityValue, floatOrZero, h]
    · simp only [activityValue, floatOrZero, h, Option.getD_some]
      rw [if_pos hq]
  refine ⟨?_, rfl⟩
  rw [← Option.not_isSome_iff_eq_none]
  intro hsome
  obtain ⟨f, _, hp⟩ := calc_pos_of_isSome form FACTORS key hsome
  rw [hav] at hp
  simp at hp

/-- Witness for C9 (amended) at key "cloud" on the empty form. -/
theorem scar_C9_witness :
    ((("cloud" : String), (120 : ℚ)) ∈ FACTORS)
    ∧ ((fun _ : String => RawValue.missing) "cloud" = RawValue.missing)
    ∧ lookup (calculate_emissions (fun _ => RawValue.missing)).1 "cloud" = none :=
  ⟨by simp [FACTORS], rfl,
    (scar_C9_amended (fun _ => RawValue.missing) "cloud" 120 (by simp [FACTORS])
      (Or.inl rfl)).1⟩
